import Mathlib

/-!
# Order processing: write path, projector and cached read path

A shallow embedding of `src/index.js` (the monolith) and
`src/services/orders-read/index.js` (the stand-alone read service).

* the two SQL tables are lists of rows, each SQL statement is a function on them;
* the two queues are lists of JSON messages;
* the circuit breaker (the `opossum` library) is seen through what one
  `breaker.fire` gives and what `breaker.opened` reads afterwards;
* the cache is a list of entries with an expiry time.
-/

namespace OrderSystem

/-! ## JavaScript values -/

/-- A JavaScript number: a finite value (kept exact), NaN, or an infinity. -/
inductive JsNum where
  | fin (q : ℚ)
  | nan
  | posInf
  | negInf
  deriving DecidableEq

/-- The values a field of a parsed JSON body can hold. A non-primitive (array or
object) is kept as the string its conversion to a primitive gives, such as
`[object Object]` for a plain object. -/
inductive JsVal where
  | undefined
  | null
  | bool (b : Bool)
  | num (n : JsNum)
  | str (s : String)
  | object (prim : String)
  deriving DecidableEq

/-- JavaScript truthiness of a number: `0` and `NaN` are falsy. -/
def JsNum.truthy : JsNum → Bool
  | .fin q => decide (q ≠ 0)
  | .nan => false
  | .posInf => true
  | .negInf => true

/-- JavaScript truthiness, as used by `||` and `&&`. -/
def JsVal.truthy : JsVal → Bool
  | .undefined => false
  | .null => false
  | .bool b => b
  | .num n => n.truthy
  | .str s => decide (s ≠ "")
  | .object _ => true

/-- The operator `a || b`. -/
def JsVal.or (a b : JsVal) : JsVal := if a.truthy then a else b

/-- A finite non-negative number: what the data model calls a non-negative decimal. -/
def JsNum.NonNegDecimal : JsNum → Prop
  | .fin q => 0 ≤ q
  | _ => False

instance (n : JsNum) : Decidable n.NonNegDecimal := by
  cases n <;> unfold JsNum.NonNegDecimal <;> infer_instance

/-- The number a finite JS number is written as by `JSON.stringify`; NaN and
the infinities are written `null`. -/
def jsonNumber : JsNum → Option ℚ
  | .fin q => some q
  | _ => none

/-! ### `Number(string)` -/

/-- White space and line terminators that `Number` strips from both ends. -/
def isStrWhiteSpace (c : Char) : Bool :=
  let n := c.toNat
  n == 0x09 || n == 0x0A || n == 0x0B || n == 0x0C || n == 0x0D || n == 0x20 ||
  n == 0xA0 || n == 0x1680 || (0x2000 ≤ n && n ≤ 0x200A) || n == 0x2028 ||
  n == 0x2029 || n == 0x202F || n == 0x205F || n == 0x3000 || n == 0xFEFF

/-- The value of a digit in the given radix, if it is one. -/
def digitValue (radix : Nat) (c : Char) : Option Nat :=
  let n := c.toNat
  let v :=
    if 48 ≤ n ∧ n ≤ 57 then some (n - 48)
    else if 97 ≤ n ∧ n ≤ 102 then some (n - 87)
    else if 65 ≤ n ∧ n ≤ 70 then some (n - 55)
    else none
  match v with
  | some d => if d < radix then some d else none
  | none => none

/-- Reads a whole list of digits in the given radix; `none` when the list is
empty or holds another character. -/
def readDigits (radix : Nat) (cs : List Char) : Option Nat :=
  if cs.isEmpty then none
  else cs.foldl
    (fun acc c => match acc, digitValue radix c with
      | some a, some d => some (a * radix + d)
      | _, _ => none)
    (some 0)

/-- Rounds a mathematical value to a JS number as far as the range goes:
beyond the largest double the result is an infinity. -/
def ofRat (q : ℚ) : JsNum :=
  if (2 : ℚ) ^ 1024 - 2 ^ 970 ≤ q then .posInf
  else if q ≤ -((2 : ℚ) ^ 1024 - 2 ^ 970) then .negInf
  else .fin q

/-- An optional exponent part `e[+-]digits`; `none` when malformed. -/
def readExponent (cs : List Char) : Option Int :=
  match cs with
  | [] => some 0
  | c :: rest =>
    if c = 'e' ∨ c = 'E' then
      match rest with
      | '+' :: ds => (readDigits 10 ds).map Int.ofNat
      | '-' :: ds => (readDigits 10 ds).map (fun n => - Int.ofNat n)
      | ds => (readDigits 10 ds).map Int.ofNat
    else none

/-- An unsigned decimal literal: `Infinity`, `digits[.digits][exp]`, `.digits[exp]`. -/
def readUnsignedDecimal (cs : List Char) : Option JsNum :=
  if cs = "Infinity".toList then some .posInf
  else
    let ip := cs.takeWhile Char.isDigit
    let r1 := cs.dropWhile Char.isDigit
    let (fp, r2, dotted) :=
      match r1 with
      | '.' :: r => (r.takeWhile Char.isDigit, r.dropWhile Char.isDigit, true)
      | r => ([], r, false)
    if ip.isEmpty ∧ fp.isEmpty then none
    else if ip.isEmpty ∧ ¬ dotted then none
    else
      match readDigits 10 (('0' :: ip) ++ fp), readExponent r2 with
      | some m, some e => some (ofRat ((m : ℚ) * (10 : ℚ) ^ (e - (fp.length : Int))))
      | _, _ => none

/-- The negation of a JS number. -/
def JsNum.neg : JsNum → JsNum
  | .fin q => .fin (-q)
  | .nan => .nan
  | .posInf => .negInf
  | .negInf => .posInf

/-- A numeric literal after trimming. -/
def readNumericLiteral (cs : List Char) : JsNum :=
  match cs with
  | [] => .fin 0
  | '0' :: 'x' :: ds | '0' :: 'X' :: ds =>
    match readDigits 16 ds with | some n => ofRat n | none => .nan
  | '0' :: 'o' :: ds | '0' :: 'O' :: ds =>
    match readDigits 8 ds with | some n => ofRat n | none => .nan
  | '0' :: 'b' :: ds | '0' :: 'B' :: ds =>
    match readDigits 2 ds with | some n => ofRat n | none => .nan
  | '+' :: ds => (readUnsignedDecimal ds).getD .nan
  | '-' :: ds => ((readUnsignedDecimal ds).map JsNum.neg).getD .nan
  | ds => (readUnsignedDecimal ds).getD .nan

/-- The builtin `Number` on a string. -/
def stringToNumber (s : String) : JsNum :=
  let cs := s.toList.dropWhile isStrWhiteSpace
  readNumericLiteral (cs.reverse.dropWhile isStrWhiteSpace).reverse

/-- The builtin `Number(v)`. -/
def JsVal.toNumber : JsVal → JsNum
  | .undefined => .nan
  | .null => .fin 0
  | .bool b => if b then .fin 1 else .fin 0
  | .num n => n
  | .str s => stringToNumber s
  | .object prim => stringToNumber prim

/-! ## The SQL tables -/

/-- A row of `orders_write` or `orders_read`: `(id TEXT PRIMARY KEY, status TEXT, amount NUMERIC)`. -/
structure Row where
  id : String
  status : String
  amount : JsNum
  deriving DecidableEq

/-- A table is the list of its rows. -/
abbrev Table := List Row

/-- Whether the table holds a row with this primary key. -/
def hasId (t : Table) (id : String) : Bool := t.any (fun r => r.id == id)

/-- The query `SELECT id,status,amount FROM t WHERE id=$1`, as `q.rows[0]`;
`none` when `q.rows` is empty. -/
def selectById (t : Table) (id : String) : Option Row := t.find? (fun r => r.id == id)

/-- The statement `INSERT INTO t(id,status,amount) VALUES($1,$2,$3)`: a duplicate
primary key makes the query throw. -/
def insertRow (t : Table) (r : Row) : Option Table :=
  if hasId t r.id then none else some (t ++ [r])

/-- The statement `INSERT ... ON CONFLICT (id) DO NOTHING`. -/
def insertOrNothing (t : Table) (r : Row) : Table :=
  if hasId t r.id then t else t ++ [r]

/-- The statement `UPDATE t SET status=$2, amount=$3 WHERE id=$1`. -/
def updateById (t : Table) (id status : String) (amount : JsNum) : Table :=
  t.map (fun r => if r.id == id then { r with status := status, amount := amount } else r)

/-- The statement `INSERT ... ON CONFLICT (id) DO UPDATE SET status=EXCLUDED.status,
amount=EXCLUDED.amount`. -/
def insertOrUpdate (t : Table) (r : Row) : Table :=
  if hasId t r.id then updateById t r.id r.status r.amount else t ++ [r]

/-! ## Events and the projector -/

/-- A parsed queue message `{type, id, amount}`. `amount` is the JSON number, or
`none` when the field is `null` or missing. -/
structure Evt where
  type : String
  id : String
  amount : Option ℚ
  deriving DecidableEq

/-- The message `{ type: 'OrderCreated', id }`. -/
def Evt.orderCreated (id : String) : Evt := ⟨"OrderCreated", id, none⟩

/-- The message `{ type: 'PaymentRequested', id, amount }` after `JSON.stringify`. -/
def Evt.paymentRequested (id : String) (amount : JsNum) : Evt :=
  ⟨"PaymentRequested", id, jsonNumber amount⟩

/-- The message `{ type: 'PaymentCompleted', id, amount }` after `JSON.stringify`. -/
def Evt.paymentCompleted (id : String) (amount : JsNum) : Evt :=
  ⟨"PaymentCompleted", id, jsonNumber amount⟩

/-- The expression `evt.amount || 0`. -/
def amountOrZero (a : Option ℚ) : JsNum :=
  match a with
  | some q => if (JsNum.fin q).truthy then .fin q else .fin 0
  | none => .fin 0

/-- The body of the `projector` consumer for one parsed message, on `orders_read`. -/
def projector (t : Table) (evt : Evt) : Table :=
  if evt.type = "OrderCreated" then
    insertOrNothing t ⟨evt.id, "CREATED", .fin 0⟩
  else if evt.type = "PaymentCompleted" then
    insertOrUpdate t ⟨evt.id, "PAID", amountOrZero evt.amount⟩
  else t

/-- The projector run over a sequence of delivered messages. -/
def project (t : Table) (evts : List Evt) : Table := evts.foldl projector t

/-! ## The payment client, as the write service sees it -/

/-- A thrown JavaScript error; the handlers read only its message. -/
structure JsError where
  message : String
  deriving DecidableEq

/-- The function `internalCharge`: throws `random_fail` when the draw of
`Math.random()` is below `FAILURE_RATE`. -/
def internalCharge (failureRate random : ℚ) : Except JsError String :=
  if random < failureRate then .error ⟨"random_fail"⟩ else .ok "CHARGED"

/-- The function `chargePayment(payload)`: the payload is not used. -/
def chargePayment (failureRate random : ℚ) : Except JsError String :=
  internalCharge failureRate random

/-- Modelled from the spec: the circuit breaker is the `opossum` library, which is
not part of the repository. One `breaker.fire` either lets the raw charge through
(closed, or the half-open trial) and settles as the raw charge does, or, in the
Open state, rejects with `CircuitOpen` without a raw call. `opened` is what
`breaker.opened` reads right after a failed raw call (the failure may have
tripped the breaker); after a `CircuitOpen` rejection the breaker is open. -/
inductive FireResult where
  | charged
  | paymentFailed (e : JsError) (opened : Bool)
  | circuitOpen (e : JsError)
  deriving DecidableEq

/-- A `breaker.fire` that the breaker lets through to `chargePayment`. -/
def fireThrough (failureRate random : ℚ) (openedAfter : Bool) : FireResult :=
  match chargePayment failureRate random with
  | .ok _ => .charged
  | .error e => .paymentFailed e openedAfter

/-- The error caught from `await execCharge()` together with the value of
`breaker.opened` in the catch block; `none` when the call resolved. -/
def FireResult.caught : FireResult → Option (JsError × Bool)
  | .charged => none
  | .paymentFailed e opened => some (e, opened)
  | .circuitOpen e => some (e, true)

/-- What the retry loop does to the outside: a call of `breaker.fire`, or a
`setTimeout` wait of so many milliseconds. -/
inductive Effect where
  | charge
  | wait (ms : Nat)
  deriving DecidableEq

/-- How the retry loop ends: the error it throws (`none` after `break`) and what it did. -/
structure LoopResult where
  thrown : Option JsError
  trace : List Effect
  deriving DecidableEq

/-- The constant `maxRetries`. -/
def maxRetries : Nat := 3

/-- The `while (true)` loop of `POST /orders/:id/pay`, from the value of
`attempt` on. `fire k` is the outcome of the `k`-th call of `breaker.fire` from
here on. The loop has no bound of its own, so the embedding carries fuel. -/
def retryLoop (fire : Nat → FireResult) : Nat → Nat → Option LoopResult
  | 0, _ => none
  | fuel + 1, attempt =>
    match (fire 0).caught with
    | none => some ⟨none, [.charge]⟩
    | some (e, opened) =>
      let attempt := attempt + 1
      if attempt > maxRetries || opened then some ⟨some e, [.charge]⟩
      else
        (retryLoop (fun k => fire (k + 1)) fuel attempt).map
          (fun r => ⟨r.thrown, .charge :: .wait (200 * attempt) :: r.trace⟩)

/-- The number of `breaker.fire` calls in a trace. -/
def numCharges (trace : List Effect) : Nat := trace.count .charge

/-! ## HTTP requests and responses -/

/-- The value of `req.body` after the body parsers: nothing parsed, the text of an
XML content type, or a JSON body, kept as the value of its `amount` property
(`undefined` when it has none). -/
inductive ReqBody where
  | absent
  | text (s : String)
  | json (amount : JsVal)
  deriving DecidableEq

/-- The expression `req.body && req.body.amount`. -/
def ReqBody.amountField : ReqBody → JsVal
  | .absent => .undefined
  | .text s => if s = "" then .str "" else .undefined
  | .json a => a

/-- The SOAP documents the read endpoints send, by their template and parameters. -/
inductive SoapDoc where
  | fault (faultcode faultstring : String)
  | getOrderResponse (id status : String) (amount : JsNum)
  deriving DecidableEq

/-- The function `buildSoapFault(code, message)`. -/
def buildSoapFault (code message : String) : SoapDoc := .fault code message

/-- The function `buildGetOrderResponse(id, status, amount)`. -/
def buildGetOrderResponse (id status : String) (amount : JsNum) : SoapDoc :=
  .getOrderResponse id status amount

/-- A response body. -/
inductive Body where
  | idStatus (id status : String)
  | failure (error details : String)
  | error (error : String)
  | order (row : Row)
  | xml (doc : SoapDoc)
  deriving DecidableEq

/-- An HTTP response. -/
structure Response where
  status : Nat
  body : Body
  deriving DecidableEq

/-! ## The write service -/

/-- The state the write endpoints act on: `orders_write` and the two queues. -/
structure Sys where
  ordersWrite : Table
  projectorQ : List Evt
  paymentsQ : List Evt
  deriving DecidableEq

/-- The state at start-up: an empty table and empty queues. -/
def Sys.init : Sys := ⟨[], [], []⟩

/-- The handler `POST /orders`, with `now` the value of `Date.now()`. When the
insert throws (duplicate key) nothing is published and no response is sent. -/
def createOrder (s : Sys) (now : Nat) : Sys × Option Response :=
  let id := toString now
  match insertRow s.ordersWrite ⟨id, "CREATED", .fin 0⟩ with
  | none => (s, none)
  | some w =>
    ({ s with ordersWrite := w, projectorQ := s.projectorQ ++ [Evt.orderCreated id] },
      some ⟨201, .idStatus id "CREATED"⟩)

/-- The expression `Number((req.body && req.body.amount) || 10)`. -/
def payAmount (body : ReqBody) : JsNum :=
  (body.amountField.or (.num (.fin 10))).toNumber

/-- The outcome of `POST /orders/:id/pay`: the new state, the response, and what
the retry loop did. -/
structure PayResult where
  sys : Sys
  response : Response
  trace : List Effect
  deriving DecidableEq

/-- What the database and the channel answer to the three calls that follow the
retry loop inside the `try` block: for each, `none` when it succeeds, or the
error it throws (a lost connection, a closed channel, a parameter that
PostgreSQL refuses, such as a text holding U+0000). -/
structure PayIo where
  update : Option JsError
  sendPayments : Option JsError
  sendProjector : Option JsError
  deriving DecidableEq

/-- The database and the channel in working order. -/
def PayIo.ok : PayIo := ⟨none, none, none⟩

/-- The handler `POST /orders/:id/pay`. Whatever is thrown inside the `try` block,
by the retry loop, the UPDATE or a `sendToQueue`, lands in the `catch` block. -/
def payOrder (s : Sys) (id : String) (body : ReqBody) (fire : Nat → FireResult) (io : PayIo) :
    Option PayResult :=
  let amount := payAmount body
  match retryLoop fire (maxRetries + 1) 0 with
  | none => none
  | some r =>
    match r.thrown with
    | some e => some ⟨s, ⟨503, .failure "payment_failed_or_cb_open" e.message⟩, r.trace⟩
    | none =>
      match io.update with
      | some e => some ⟨s, ⟨503, .failure "payment_failed_or_cb_open" e.message⟩, r.trace⟩
      | none =>
        let s1 : Sys := { s with ordersWrite := updateById s.ordersWrite id "PAID" amount }
        match io.sendPayments with
        | some e => some ⟨s1, ⟨503, .failure "payment_failed_or_cb_open" e.message⟩, r.trace⟩
        | none =>
          let s2 : Sys := { s1 with paymentsQ := s.paymentsQ ++ [Evt.paymentRequested id amount] }
          match io.sendProjector with
          | some e => some ⟨s2, ⟨503, .failure "payment_failed_or_cb_open" e.message⟩, r.trace⟩
          | none =>
            some ⟨{ s2 with projectorQ := s.projectorQ ++ [Evt.paymentCompleted id amount] },
              ⟨200, .idStatus id "PAID"⟩, r.trace⟩

/-- A request to the write service. -/
inductive Request where
  | create (now : Nat)
  | pay (id : String) (body : ReqBody) (fire : Nat → FireResult) (io : PayIo)

/-- The state after one request. -/
def Sys.step (s : Sys) : Request → Sys
  | .create now => (createOrder s now).1
  | .pay id body fire io =>
    match payOrder s id body fire io with
    | some r => r.sys
    | none => s

/-- The state after a sequence of requests. -/
def Sys.run (s : Sys) (reqs : List Request) : Sys := reqs.foldl Sys.step s

/-! ## The read service -/

/-- A cache entry: the value is the row whose `JSON.stringify` text the entry
holds (`JSON.parse` gives it back), `expiresAt` the time in milliseconds from
which the store no longer returns it. -/
structure CacheEntry where
  key : String
  value : Row
  expiresAt : Nat
  deriving DecidableEq

/-- The cache: a store of entries that expire. -/
abbrev Cache := List CacheEntry

/-- The call `redis.get(key)` at time `now`. -/
def redisGet (c : Cache) (key : String) (now : Nat) : Option Row :=
  (c.find? (fun e => e.key == key && decide (now < e.expiresAt))).map CacheEntry.value

/-- The call `redis.set(key, value, { EX: ex })` at time `now`. -/
def redisSet (c : Cache) (key : String) (value : Row) (ex now : Nat) : Cache :=
  ⟨key, value, now + 1000 * ex⟩ :: c.filter (fun e => e.key != key)

/-- The template string for the cache key. -/
def cacheKey (id : String) : String := "order:" ++ id

/-- The `EX` of the monolith (`src/index.js`). -/
def monolithEx : Nat := 10

/-- The dynamic configuration of the read service; `cacheTtlSec` is `0` when the
fetched document has no usable value. -/
structure Config where
  cacheTtlSec : Nat

/-- The expression `config.cacheTtlSec || 10` of the read service. -/
def serviceEx (config : Config) : Nat :=
  if config.cacheTtlSec ≠ 0 then config.cacheTtlSec else 10

/-- What a read handler does to the cache and the read store. -/
inductive ReadEffect where
  | cacheGet (key : String)
  | dbSelect (id : String)
  | cacheSet (key : String) (value : Row) (ex : Nat)
  deriving DecidableEq

/-- The outcome of a read handler: the new cache, the response (`none` when the
handler throws outside any `try` and sends none), what it did. -/
structure ReadResult where
  cache : Cache
  response : Option Response
  trace : List ReadEffect
  deriving DecidableEq

/-- The handler `GET /orders/:id`; `now` is the time of `redis.get`, `later` the
time of `redis.set`, `ex` the `EX` value. `select` is what the database answers
to the SELECT, if the handler gets that far: `none` when the query succeeds, or
the error it rejects with (a lost connection, or an id that PostgreSQL refuses,
such as one holding U+0000). The query is awaited outside any `try`: when it
rejects, the handler sends no response. -/
def getOrder (ex : Nat) (t : Table) (c : Cache) (id : String) (now later : Nat)
    (select : Option JsError) : ReadResult :=
  let key := cacheKey id
  match redisGet c key now with
  | some cached => ⟨c, some ⟨200, .order cached⟩, [.cacheGet key]⟩
  | none =>
    match select with
    | some _ => ⟨c, none, [.cacheGet key, .dbSelect id]⟩
    | none =>
      match selectById t id with
      | none => ⟨c, some ⟨404, .error "not_found"⟩, [.cacheGet key, .dbSelect id]⟩
      | some data =>
        ⟨redisSet c key data ex later, some ⟨200, .order data⟩,
          [.cacheGet key, .dbSelect id, .cacheSet key data ex]⟩

/-- Drops the literal `lit` from the front of `cs`, if `cs` starts with it. -/
def dropLiteral (lit cs : List Char) : Option (List Char) :=
  if lit.isPrefixOf cs then some (cs.drop lit.length) else none

/-- The regular expression `<id>([^<]+)<\/id>` matched at the start of `cs`: the
capture group. The group is followed by `<`, so it is the longest run without `<`. -/
def matchIdAt (cs : List Char) : Option (List Char) :=
  match dropLiteral "<id>".toList cs with
  | none => none
  | some rest =>
    let group := rest.takeWhile (fun c => c ≠ '<')
    if group ≠ [] ∧ "</id>".toList.isPrefixOf (rest.dropWhile (fun c => c ≠ '<')) then some group
    else none

/-- The call `xml.match(/<id>([^<]+)<\/id>/)`: the capture group of the leftmost match. -/
def idMatch : List Char → Option (List Char)
  | [] => none
  | c :: cs =>
    match matchIdAt (c :: cs) with
    | some group => some group
    | none => idMatch cs

/-- The handler `POST /soap/order`, with `select` as in `getOrder`. A body that is
not a string has no `match` method: the `TypeError` lands in the `catch` block,
and so does a SELECT that rejects. -/
def soapOrder (ex : Nat) (t : Table) (c : Cache) (body : ReqBody) (now later : Nat)
    (select : Option JsError) : ReadResult :=
  match body with
  | .text xml =>
    match idMatch xml.toList with
    | none => ⟨c, some ⟨400, .xml (buildSoapFault "Client" "Missing <id> in request")⟩, []⟩
    | some group =>
      let id := String.mk group
      let key := cacheKey id
      match redisGet c key now with
      | some order =>
        ⟨c, some ⟨200, .xml (buildGetOrderResponse order.id order.status order.amount)⟩,
          [.cacheGet key]⟩
      | none =>
        match select with
        | some _ =>
          ⟨c, some ⟨500, .xml (buildSoapFault "Server" "Internal server error")⟩,
            [.cacheGet key, .dbSelect id]⟩
        | none =>
          match selectById t id with
          | none =>
            ⟨c, some ⟨404, .xml (buildSoapFault "Client" ("Order " ++ id ++ " not found"))⟩,
              [.cacheGet key, .dbSelect id]⟩
          | some order =>
            ⟨redisSet c key order ex later,
              some ⟨200, .xml (buildGetOrderResponse order.id order.status order.amount)⟩,
              [.cacheGet key, .dbSelect id, .cacheSet key order ex]⟩
  | _ => ⟨c, some ⟨500, .xml (buildSoapFault "Server" "Internal server error")⟩, []⟩

/-- The read side: `orders_read` and the cache. -/
structure ReadSys where
  ordersRead : Table
  cache : Cache
  deriving DecidableEq

/-- What happens on the read side: the projector applies a delivered message, or
a read endpoint serves a request. -/
inductive ReadOp where
  | deliver (evt : Evt)
  | get (ex : Nat) (id : String) (now later : Nat) (select : Option JsError)
  | soap (ex : Nat) (body : ReqBody) (now later : Nat) (select : Option JsError)

/-- The read side after one operation. -/
def ReadSys.step (s : ReadSys) : ReadOp → ReadSys
  | .deliver evt => { s with ordersRead := projector s.ordersRead evt }
  | .get ex id now later select =>
    { s with cache := (getOrder ex s.ordersRead s.cache id now later select).cache }
  | .soap ex body now later select =>
    { s with cache := (soapOrder ex s.ordersRead s.cache body now later select).cache }

/-- The read side after a sequence of operations. -/
def ReadSys.run (s : ReadSys) (ops : List ReadOp) : ReadSys := ops.foldl ReadSys.step s

/-! ## Theorems -/

theorem selectById_cons (r : Row) (t : Table) (id : String) :
    selectById (r :: t) id = if r.id = id then some r else selectById t id := by
  by_cases h : r.id = id <;> simp [selectById, List.find?_cons, h]

theorem updateById_cons (r : Row) (t : Table) (id s : String) (a : JsNum) :
    updateById (r :: t) id s a =
      (if r.id = id then { r with status := s, amount := a } else r) :: updateById t id s a := by
  by_cases h : r.id = id <;> simp [updateById, h]

theorem hasId_cons (r : Row) (t : Table) (id : String) :
    hasId (r :: t) id = (decide (r.id = id) || hasId t id) := by
  by_cases h : r.id = id <;> simp [hasId, h]

theorem hasId_eq_isSome (t : Table) (id : String) : hasId t id = (selectById t id).isSome := by
  induction t with
  | nil => rfl
  | cons r t ih =>
    rw [hasId_cons, selectById_cons, ih]
    by_cases h : r.id = id <;> simp [h]

theorem hasId_append (t u : Table) (id : String) : hasId (t ++ u) id = (hasId t id || hasId u id) := by
  simp [hasId]

theorem hasId_updateById (t : Table) (id id' s : String) (a : JsNum) :
    hasId (updateById t id s a) id' = hasId t id' := by
  induction t with
  | nil => rfl
  | cons r t ih =>
    rw [updateById_cons, hasId_cons, hasId_cons, ih]
    by_cases h : r.id = id <;> simp [h]

theorem updateById_of_not_hasId (t : Table) (id s : String) (a : JsNum) (h : hasId t id = false) :
    updateById t id s a = t := by
  induction t with
  | nil => rfl
  | cons r t ih =>
    rw [hasId_cons, Bool.or_eq_false_iff] at h
    rw [updateById_cons, ih h.2]
    have : r.id ≠ id := by simpa using h.1
    simp [this]

theorem updateById_idem (t : Table) (id s : String) (a : JsNum) :
    updateById (updateById t id s a) id s a = updateById t id s a := by
  induction t with
  | nil => rfl
  | cons r t ih =>
    rw [updateById_cons, updateById_cons, ih]
    by_cases h : r.id = id <;> simp [h]

theorem selectById_updateById (t : Table) (id id' s : String) (a : JsNum) :
    selectById (updateById t id s a) id' =
      (selectById t id').map (fun r => if r.id = id then { r with status := s, amount := a } else r) := by
  induction t with
  | nil => rfl
  | cons r t ih =>
    have hid : (if r.id = id then ({ r with status := s, amount := a } : Row) else r).id = r.id := by
      split <;> rfl
    rw [updateById_cons, selectById_cons, selectById_cons, ih, hid]
    by_cases h2 : r.id = id'
    · simp only [if_pos h2, Option.map_some']
    · simp only [if_neg h2]

theorem selectById_append (t u : Table) (id : String) :
    selectById (t ++ u) id = (selectById t id).or (selectById u id) := by
  simp [selectById, List.find?_append]

theorem selectById_id (t : Table) (id : String) (r : Row) (h : selectById t id = some r) : r.id = id := by
  have := List.find?_some h
  simpa using this

/-- One projector step keeps a PAID row PAID. -/
theorem projector_keeps_paid (t : Table) (evt : Evt) (id : String)
    (h : (selectById t id).map Row.status = some "PAID") :
    (selectById (projector t evt) id).map Row.status = some "PAID" := by
  obtain ⟨r, hr, hs⟩ := Option.map_eq_some'.mp h
  unfold projector
  split
  · unfold insertOrNothing
    split
    · exact h
    · rw [selectById_append, hr]; simpa using hs
  · split
    · unfold insertOrUpdate
      split
      · rw [selectById_updateById, hr]
        simp only [Option.map_some']
        by_cases h3 : r.id = evt.id <;> simp [h3, hs]
      · rw [selectById_append, hr]; simpa using hs
    · exact h

theorem insertOrUpdate_idem (t : Table) (r : Row) :
    insertOrUpdate (insertOrUpdate t r) r = insertOrUpdate t r := by
  unfold insertOrUpdate
  cases h : hasId t r.id
  · have h1 : hasId (t ++ [r]) r.id = true := by simp [hasId_append, hasId_cons]
    have h2 : updateById (t ++ [r]) r.id r.status r.amount = t ++ [r] := by
      have := updateById_of_not_hasId t r.id r.status r.amount h
      simp only [updateById, List.map_append] at this ⊢
      rw [this]
      simp
    simp [h1, h2]
  · simp [hasId_updateById, h, updateById_idem]

theorem hasId_projector (t : Table) (evt : Evt) (id : String) (h : hasId t id = true) :
    hasId (projector t evt) id = true := by
  unfold projector insertOrNothing insertOrUpdate
  split
  · split
    · exact h
    · simp [hasId_append, h]
  · split
    · split
      · rw [hasId_updateById]; exact h
      · simp [hasId_append, h]
    · exact h

theorem project_keeps_paid (evts : List Evt) (t : Table) (id : String)
    (h : (selectById t id).map Row.status = some "PAID") :
    (selectById (project t evts) id).map Row.status = some "PAID" := by
  induction evts generalizing t with
  | nil => exact h
  | cons e es ih => exact ih (projector t e) (projector_keeps_paid t e id h)

theorem projector_paymentCompleted (t : Table) (id : String) (amount : Option ℚ) :
    projector t ⟨"PaymentCompleted", id, amount⟩ =
      insertOrUpdate t ⟨id, "PAID", amountOrZero amount⟩ := by
  have h : ¬ ("PaymentCompleted" = "OrderCreated") := by decide
  simp only [projector, if_neg h, if_true]

theorem projector_orderCreated (t : Table) (id : String) :
    projector t (Evt.orderCreated id) = insertOrNothing t ⟨id, "CREATED", .fin 0⟩ := by
  simp only [projector, Evt.orderCreated, if_true]

theorem selectById_paymentCompleted (t : Table) (id : String) (amount : Option ℚ) :
    selectById (projector t ⟨"PaymentCompleted", id, amount⟩) id =
      some ⟨id, "PAID", amountOrZero amount⟩ := by
  rw [projector_paymentCompleted]
  simp only [insertOrUpdate]
  cases h : hasId t id
  · have : selectById t id = none := by
      have := hasId_eq_isSome t id
      rw [h] at this
      exact Option.not_isSome_iff_eq_none.mp (by simp [← this])
    simp [selectById_append, this, selectById_cons]
  · have h2 := hasId_eq_isSome t id
    rw [h] at h2
    obtain ⟨r, hr⟩ := Option.isSome_iff_exists.mp h2.symm
    have hid := selectById_id t id r hr
    simp [selectById_updateById, hr, hid]

/-- C1: a read row that is PAID stays PAID through every later sequence of
projector messages, whatever their types, order and repetition; and an
OrderCreated for an id delivered after a PaymentCompleted for it leaves the
table as it is, the row of that id being PAID with the amount the
PaymentCompleted wrote. -/
theorem projector_never_regresses_paid (rt : Table) (evts : List Evt) (id : String)
    (amount : Option ℚ) :
    ((selectById rt id).map Row.status = some "PAID" →
      (selectById (project rt evts) id).map Row.status = some "PAID") ∧
    projector (projector rt ⟨"PaymentCompleted", id, amount⟩) (Evt.orderCreated id) =
      projector rt ⟨"PaymentCompleted", id, amount⟩ ∧
    selectById (project rt [⟨"PaymentCompleted", id, amount⟩, Evt.orderCreated id]) id =
      some ⟨id, "PAID", amountOrZero amount⟩ := by
  have hsel := selectById_paymentCompleted rt id amount
  have hhas : hasId (projector rt ⟨"PaymentCompleted", id, amount⟩) id = true := by
    rw [hasId_eq_isSome, hsel]; rfl
  have hsame : projector (projector rt ⟨"PaymentCompleted", id, amount⟩) (Evt.orderCreated id) =
      projector rt ⟨"PaymentCompleted", id, amount⟩ := by
    generalize projector rt ⟨"PaymentCompleted", id, amount⟩ = t1 at hhas
    rw [projector_orderCreated]
    simp [insertOrNothing, hhas]
  refine ⟨project_keeps_paid evts rt id, hsame, ?_⟩
  simp only [project, List.foldl_cons, List.foldl_nil]
  rw [hsame, hsel]

/-- A PAID row survives an OrderCreated and a message of an unknown type. -/
theorem projector_never_regresses_paid_witness :
    (selectById [⟨"7", "PAID", .fin 5⟩] "7").map Row.status = some "PAID" ∧
    (selectById (project [⟨"7", "PAID", .fin 5⟩] [Evt.orderCreated "7", ⟨"Shipped", "7", none⟩]) "7").map
      Row.status = some "PAID" :=
  ⟨by decide,
    (projector_never_regresses_paid [⟨"7", "PAID", .fin 5⟩]
      [Evt.orderCreated "7", ⟨"Shipped", "7", none⟩] "7" none).1 (by decide)⟩

/-- C2: applying a PaymentCompleted message twice gives exactly the read table
that applying it once gives. -/
theorem projector_paymentCompleted_idempotent (rt : Table) (id : String) (amount : Option ℚ) :
    projector (projector rt ⟨"PaymentCompleted", id, amount⟩) ⟨"PaymentCompleted", id, amount⟩ =
      projector rt ⟨"PaymentCompleted", id, amount⟩ := by
  rw [projector_paymentCompleted, projector_paymentCompleted]
  exact insertOrUpdate_idem rt _



theorem numCharges_cons_charge (tr : List Effect) : numCharges (.charge :: tr) = numCharges tr + 1 := by
  simp [numCharges]

theorem numCharges_cons_wait (ms : Nat) (tr : List Effect) : numCharges (.wait ms :: tr) = numCharges tr := by
  simp [numCharges]

theorem retryLoop_succ (fire : Nat → FireResult) (fuel attempt : Nat) :
    retryLoop fire (fuel + 1) attempt =
      match (fire 0).caught with
      | none => some ⟨none, [.charge]⟩
      | some (e, opened) =>
        if attempt + 1 > maxRetries || opened then some ⟨some e, [.charge]⟩
        else
          (retryLoop (fun k => fire (k + 1)) fuel (attempt + 1)).map
            (fun r => ⟨r.thrown, .charge :: .wait (200 * (attempt + 1)) :: r.trace⟩) := rfl

/-- With enough fuel the retry loop ends. -/
theorem retryLoop_isSome (fuel : Nat) : ∀ (attempt : Nat) (fire : Nat → FireResult),
    1 ≤ fuel → maxRetries + 1 ≤ fuel + attempt → (retryLoop fire fuel attempt).isSome = true := by
  induction fuel with
  | zero => intro _ _ h; omega
  | succ fuel ih =>
    intro attempt fire _ hb
    rw [retryLoop_succ]
    cases hc : (fire 0).caught with
    | none => rfl
    | some p =>
      obtain ⟨e, opened⟩ := p
      simp only
      split
      · rfl
      · rename_i hcond
        simp only [Bool.or_eq_true, decide_eq_true_eq, not_or] at hcond
        have := ih (attempt + 1) (fun k => fire (k + 1)) (by omega) (by omega)
        simpa using this

/-- The loop started by the handler always ends. -/
theorem retryLoop_total (fire : Nat → FireResult) :
    ∃ r, retryLoop fire (maxRetries + 1) 0 = some r :=
  Option.isSome_iff_exists.mp (retryLoop_isSome (maxRetries + 1) 0 fire (by simp) (by simp))

/-- A call that the open breaker rejects is the last thing the loop does. -/
theorem retryLoop_circuitOpen (fuel : Nat) : ∀ (attempt : Nat) (fire : Nat → FireResult)
    (k : Nat) (e : JsError) (r : LoopResult), fire k = .circuitOpen e →
    retryLoop fire fuel attempt = some r → k < numCharges r.trace →
    numCharges r.trace = k + 1 ∧ r.trace.getLast? = some .charge ∧ r.thrown = some e := by
  induction fuel with
  | zero => intro _ _ _ _ _ _ h; simp [retryLoop] at h
  | succ fuel ih =>
    intro attempt fire k e r hk hr hreach
    rw [retryLoop_succ] at hr
    cases hc : (fire 0).caught with
    | none =>
      rw [hc] at hr
      simp only [Option.some.injEq] at hr
      subst hr
      have hk0 : k = 0 := by simp [numCharges] at hreach; omega
      subst hk0
      rw [hk] at hc
      simp [FireResult.caught] at hc
    | some p =>
      obtain ⟨e', opened⟩ := p
      rw [hc] at hr
      simp only at hr
      split at hr
      · simp only [Option.some.injEq] at hr
        subst hr
        have hk0 : k = 0 := by simp [numCharges] at hreach; omega
        subst hk0
        rw [hk] at hc
        simp only [FireResult.caught, Option.some.injEq, Prod.mk.injEq] at hc
        refine ⟨by simp [numCharges], by simp, ?_⟩
        simp [hc.1]
      · rename_i hcond
        simp only [Bool.or_eq_true, decide_eq_true_eq, not_or] at hcond
        obtain ⟨r', hr', hrr⟩ := Option.map_eq_some'.mp hr
        subst hrr
        cases k with
        | zero =>
          rw [hk] at hc
          simp only [FireResult.caught, Option.some.injEq, Prod.mk.injEq] at hc
          exact absurd hc.2.symm hcond.2
        | succ k =>
          simp only [numCharges_cons_charge, numCharges_cons_wait] at hreach ⊢
          obtain ⟨h1, h2, h3⟩ := ih (attempt + 1) (fun j => fire (j + 1)) k e r' hk hr' (by omega)
          refine ⟨by omega, ?_, h3⟩
          cases htr : r'.trace with
          | nil => rw [htr] at h2; simp at h2
          | cons a as =>
            rw [htr] at h2
            simp only [List.getLast?_cons_cons]
            exact h2

/-- The calls that let the loop go on are failed raw calls with the breaker closed. -/
theorem caught_closed (r : FireResult) (e : JsError) (h : r.caught = some (e, false)) :
    r = .paymentFailed e false := by
  cases r with
  | charged => simp [FireResult.caught] at h
  | paymentFailed e' o =>
    simp only [FireResult.caught, Option.some.injEq, Prod.mk.injEq] at h
    rw [h.1, h.2]
  | circuitOpen e' => simp [FireResult.caught] at h

/-- A terminal payment failure: the first `k` calls fail with the breaker closed, and
call `k` fails with the retries used up or the breaker open. The loop then makes
`k + 1` calls and throws the error of the last. -/
theorem retryLoop_terminal (k : Nat) : ∀ (fuel attempt : Nat) (fire : Nat → FireResult)
    (e : JsError) (opened : Bool), attempt + k ≤ maxRetries → k < fuel →
    (∀ j, j < k → ∃ e', fire j = .paymentFailed e' false) →
    (fire k).caught = some (e, opened) → (attempt + k = maxRetries ∨ opened = true) →
    ∃ trace, retryLoop fire fuel attempt = some ⟨some e, trace⟩ ∧ numCharges trace = k + 1 := by
  induction k with
  | zero =>
    intro fuel attempt fire e opened _ hfuel _ hlast hterm
    obtain ⟨f, rfl⟩ : ∃ f, fuel = f + 1 := ⟨fuel - 1, by omega⟩
    rw [retryLoop_succ, hlast]
    have hcond : (decide (attempt + 1 > maxRetries) || opened) = true := by
      rcases hterm with h | h
      · simp only [Nat.add_zero] at h
        simp [h]
      · simp [h]
    simp only [hcond, if_true]
    exact ⟨[.charge], rfl, by simp [numCharges]⟩
  | succ k ih =>
    intro fuel attempt fire e opened hle hfuel hbefore hlast hterm
    obtain ⟨f, rfl⟩ : ∃ f, fuel = f + 1 := ⟨fuel - 1, by omega⟩
    obtain ⟨e0, h0⟩ := hbefore 0 (by omega)
    rw [retryLoop_succ, h0]
    have hcond : ¬ ((decide (attempt + 1 > maxRetries) || false) = true) := by
      simp only [Bool.or_false, decide_eq_true_eq]
      omega
    simp only [FireResult.caught, hcond, if_false]
    obtain ⟨trace, htr, hn⟩ := ih f (attempt + 1) (fun j => fire (j + 1)) e opened (by omega)
      (by omega) (fun j hj => hbefore (j + 1) (by omega)) hlast
      (by rcases hterm with h | h
          · left; omega
          · right; exact h)
    refine ⟨.charge :: .wait (200 * (attempt + 1)) :: trace, ?_, ?_⟩
    · rw [htr]; rfl
    · simp only [numCharges_cons_charge, numCharges_cons_wait, hn]

/-- Every throw of the loop is a terminal payment failure in the sense above. -/
theorem retryLoop_thrown_is_terminal (fuel : Nat) : ∀ (attempt : Nat) (fire : Nat → FireResult)
    (r : LoopResult) (e : JsError), attempt ≤ maxRetries →
    retryLoop fire fuel attempt = some r → r.thrown = some e →
    ∃ k opened, attempt + k ≤ maxRetries ∧
      (∀ j, j < k → ∃ e', fire j = .paymentFailed e' false) ∧
      (fire k).caught = some (e, opened) ∧ (attempt + k = maxRetries ∨ opened = true) := by
  induction fuel with
  | zero => intro _ _ _ _ _ h; simp [retryLoop] at h
  | succ fuel ih =>
    intro attempt fire r e ha hr ht
    rw [retryLoop_succ] at hr
    cases hc : (fire 0).caught with
    | none =>
      rw [hc] at hr
      simp only [Option.some.injEq] at hr
      subst hr
      simp at ht
    | some p =>
      obtain ⟨e', opened⟩ := p
      rw [hc] at hr
      simp only at hr
      split at hr
      · rename_i hcond
        simp only [Option.some.injEq] at hr
        subst hr
        simp only [Option.some.injEq] at ht
        subst ht
        refine ⟨0, opened, by omega, fun j hj => absurd hj (by omega), hc, ?_⟩
        simp only [Bool.or_eq_true, decide_eq_true_eq] at hcond
        rcases hcond with h | h
        · left; omega
        · right; exact h
      · rename_i hcond
        simp only [Bool.or_eq_true, decide_eq_true_eq, not_or] at hcond
        have hop : opened = false := by simpa using hcond.2
        subst hop
        obtain ⟨r', hr', hrr⟩ := Option.map_eq_some'.mp hr
        subst hrr
        obtain ⟨k, o, h1, h2, h3, h4⟩ :=
          ih (attempt + 1) (fun k => fire (k + 1)) r' e (by omega) hr' ht
        refine ⟨k + 1, o, by omega, ?_, h3, ?_⟩
        · intro j hj
          cases j with
          | zero => exact ⟨e', caught_closed _ _ hc⟩
          | succ j => exact h2 j (by omega)
        · rcases h4 with h | h
          · left; omega
          · right; exact h

/-- When the loop throws, the handler answers 503 from the `catch` block and
nothing else has run. -/
theorem payOrder_of_thrown (s : Sys) (id : String) (body : ReqBody) (fire : Nat → FireResult)
    (io : PayIo) (lr : LoopResult) (e : JsError)
    (hlr : retryLoop fire (maxRetries + 1) 0 = some lr) (ht : lr.thrown = some e) :
    payOrder s id body fire io =
      some ⟨s, ⟨503, .failure "payment_failed_or_cb_open" e.message⟩, lr.trace⟩ := by
  simp only [payOrder, hlr, ht]

/-- When the loop ends with a charge, the handler runs the UPDATE and the two
publishes as far as they succeed; it answers `{id, status: PAID}` only when all
three did. -/
theorem payOrder_of_charged (s : Sys) (id : String) (body : ReqBody) (fire : Nat → FireResult)
    (io : PayIo) (lr : LoopResult)
    (hlr : retryLoop fire (maxRetries + 1) 0 = some lr) (ht : lr.thrown = none) :
    ∃ r, payOrder s id body fire io = some r ∧ r.trace = lr.trace ∧
      (r.sys.ordersWrite = s.ordersWrite ∨
        r.sys.ordersWrite = updateById s.ordersWrite id "PAID" (payAmount body)) ∧
      (r.sys.projectorQ = s.projectorQ ∨
        r.sys.projectorQ = s.projectorQ ++ [Evt.paymentCompleted id (payAmount body)]) ∧
      (r.response.status = 503 ∨
        (r.response = ⟨200, .idStatus id "PAID"⟩ ∧
          r.sys = { ordersWrite := updateById s.ordersWrite id "PAID" (payAmount body)
                    paymentsQ := s.paymentsQ ++ [Evt.paymentRequested id (payAmount body)]
                    projectorQ := s.projectorQ ++ [Evt.paymentCompleted id (payAmount body)] })) := by
  obtain ⟨u, p1, p2⟩ := io
  cases u with
  | some e =>
    simp only [payOrder, hlr, ht]
    exact ⟨_, rfl, rfl, Or.inl rfl, Or.inl rfl, Or.inl rfl⟩
  | none =>
    cases p1 with
    | some e =>
      simp only [payOrder, hlr, ht]
      exact ⟨_, rfl, rfl, Or.inr rfl, Or.inl rfl, Or.inl rfl⟩
    | none =>
      cases p2 with
      | some e =>
        simp only [payOrder, hlr, ht]
        exact ⟨_, rfl, rfl, Or.inr rfl, Or.inl rfl, Or.inl rfl⟩
      | none =>
        simp only [payOrder, hlr, ht]
        exact ⟨_, rfl, rfl, Or.inr rfl, Or.inr rfl, Or.inr ⟨rfl, rfl⟩⟩

/-- C4: when each of the four charge calls fails with PaymentFailed and the breaker
stays closed, the pay handler makes exactly maxRetries + 1 = 4 calls, waits
200, 400 and 600 ms after the first, second and third failure, and answers 503
with the message of the fourth failure; the state is left as it was, whatever
the database and the channel would have answered. -/
theorem pay_retries_exactly_four_calls (s : Sys) (id : String) (body : ReqBody)
    (fire : Nat → FireResult) (io : PayIo) (errs : Nat → JsError)
    (hfail : ∀ k, k ≤ maxRetries → fire k = .paymentFailed (errs k) false) :
    payOrder s id body fire io =
      some ⟨s, ⟨503, .failure "payment_failed_or_cb_open" (errs 3).message⟩,
        [.charge, .wait 200, .charge, .wait 400, .charge, .wait 600, .charge]⟩ ∧
    numCharges [.charge, .wait 200, .charge, .wait 400, .charge, .wait 600, .charge] =
      maxRetries + 1 := by
  have h0 := hfail 0 (by decide)
  have h1 := hfail 1 (by decide)
  have h2 := hfail 2 (by decide)
  have h3 := hfail 3 (by decide)
  have hloop : retryLoop fire (maxRetries + 1) 0 =
      some ⟨some (errs 3),
        [.charge, .wait 200, .charge, .wait 400, .charge, .wait 600, .charge]⟩ := by
    simp [maxRetries, retryLoop, h0, h1, h2, h3, FireResult.caught]
  exact ⟨payOrder_of_thrown s id body fire io _ _ hloop rfl, by decide⟩

/-- With `FAILURE_RATE = 1` and a closed breaker every draw fails: four calls, then 503. -/
theorem pay_retries_exactly_four_calls_witness :
    (∀ k, k ≤ maxRetries → fireThrough 1 (1 / 2) false = .paymentFailed ⟨"random_fail"⟩ false) ∧
    payOrder Sys.init "1" (.json .undefined) (fun _ => fireThrough 1 (1 / 2) false) PayIo.ok =
      some ⟨Sys.init, ⟨503, .failure "payment_failed_or_cb_open" "random_fail"⟩,
        [.charge, .wait 200, .charge, .wait 400, .charge, .wait 600, .charge]⟩ :=
  have h : fireThrough 1 (1 / 2) false = .paymentFailed ⟨"random_fail"⟩ false := by
    norm_num [fireThrough, chargePayment, internalCharge]
  ⟨fun _ _ => h,
    (pay_retries_exactly_four_calls Sys.init "1" (.json .undefined)
      (fun _ => fireThrough 1 (1 / 2) false) PayIo.ok (fun _ => ⟨"random_fail"⟩)
      (fun _ _ => h)).1⟩

/-- C5: a charge call that the open breaker rejects with CircuitOpen ends the retry
loop at once, whatever the value of `attempt`: that call is the only thing the
loop still does, and the rejection is what it throws. In the pay handler, if the
call number `k` is rejected, the handler has made exactly `k + 1` calls, the
last entry of its trace is that call (no wait follows), the answer is 503 with
the message of the rejection, and the state is left as it was. -/
theorem circuit_open_is_not_retried (s : Sys) (id : String) (body : ReqBody)
    (fire : Nat → FireResult) (io : PayIo) (k : Nat) (e : JsError)
    (hk : fire k = .circuitOpen e) :
    (∀ fuel attempt,
      retryLoop (fun j => fire (j + k)) (fuel + 1) attempt = some ⟨some e, [.charge]⟩) ∧
    ∃ r, payOrder s id body fire io = some r ∧
      (k < numCharges r.trace →
        numCharges r.trace = k + 1 ∧ r.trace.getLast? = some .charge ∧
        r.response = ⟨503, .failure "payment_failed_or_cb_open" e.message⟩ ∧ r.sys = s) := by
  constructor
  · intro fuel attempt
    rw [retryLoop_succ]
    simp [hk, FireResult.caught]
  · obtain ⟨lr, hlr⟩ := retryLoop_total fire
    cases ht : lr.thrown with
    | none =>
      obtain ⟨r, hr, htr, _⟩ := payOrder_of_charged s id body fire io lr hlr ht
      refine ⟨r, hr, ?_⟩
      intro hreach
      rw [htr] at hreach
      have := (retryLoop_circuitOpen _ 0 fire k e lr hk hlr hreach).2.2
      rw [ht] at this
      simp at this
    | some e' =>
      refine ⟨_, payOrder_of_thrown s id body fire io lr e' hlr ht, ?_⟩
      intro hreach
      obtain ⟨h1, h2, h3⟩ := retryLoop_circuitOpen _ 0 fire k e lr hk hlr hreach
      rw [ht] at h3
      simp only [Option.some.injEq] at h3
      subst h3
      exact ⟨h1, h2, rfl, rfl⟩

/-- A failure, a wait, then a rejection by the open breaker: two calls, one wait, 503. -/
theorem circuit_open_is_not_retried_witness :
    (payOrder Sys.init "1" (.json .undefined)
        (fun j => if j = 1 then .circuitOpen ⟨"Breaker is open"⟩
          else .paymentFailed ⟨"random_fail"⟩ false) PayIo.ok =
        some ⟨Sys.init, ⟨503, .failure "payment_failed_or_cb_open" "Breaker is open"⟩,
          [.charge, .wait 200, .charge]⟩ ∧
      1 < numCharges [.charge, .wait 200, .charge]) ∧
    ((∀ fuel attempt,
        retryLoop (fun j => (fun j => if j = 1 then FireResult.circuitOpen ⟨"Breaker is open"⟩
          else .paymentFailed ⟨"random_fail"⟩ false) (j + 1)) (fuel + 1) attempt =
          some ⟨some ⟨"Breaker is open"⟩, [.charge]⟩) ∧
      ∃ r, payOrder Sys.init "1" (.json .undefined)
          (fun j => if j = 1 then .circuitOpen ⟨"Breaker is open"⟩
            else .paymentFailed ⟨"random_fail"⟩ false) PayIo.ok = some r ∧
        (1 < numCharges r.trace →
          numCharges r.trace = 1 + 1 ∧ r.trace.getLast? = some .charge ∧
          r.response = ⟨503, .failure "payment_failed_or_cb_open"
            (JsError.mk "Breaker is open").message⟩ ∧ r.sys = Sys.init)) :=
  ⟨⟨by decide, by decide⟩,
    circuit_open_is_not_retried Sys.init "1" (.json .undefined)
      (fun j => if j = 1 then .circuitOpen ⟨"Breaker is open"⟩
        else .paymentFailed ⟨"random_fail"⟩ false) PayIo.ok 1 ⟨"Breaker is open"⟩ rfl⟩

/-- C6: when the charge calls of a pay request end in terminal failure, that is the
first `k` calls fail with the breaker closed and call `k` fails with the retries
used up (`k = maxRetries`) or with the breaker open (a rejection by the open
breaker, or a failure that opened it), the handler leaves the whole state as it
was before the request (the write table is untouched, and nothing is published
on `payments` or `projector`), makes no call after call `k`, and answers 503
with `details` the message of the error of call `k`, whatever the database and
the channel would have answered. -/
theorem pay_failure_changes_nothing (s : Sys) (id : String) (body : ReqBody)
    (fire : Nat → FireResult) (io : PayIo) (k : Nat) (e : JsError) (opened : Bool)
    (hk : k ≤ maxRetries)
    (hbefore : ∀ j, j < k → ∃ e', fire j = .paymentFailed e' false)
    (hlast : (fire k).caught = some (e, opened))
    (hterm : k = maxRetries ∨ opened = true) :
    ∃ trace, payOrder s id body fire io =
        some ⟨s, ⟨503, .failure "payment_failed_or_cb_open" e.message⟩, trace⟩ ∧
      numCharges trace = k + 1 := by
  obtain ⟨trace, htr, hn⟩ := retryLoop_terminal k (maxRetries + 1) 0 fire e opened
    (by omega) (by omega) hbefore hlast (by simpa using hterm)
  exact ⟨trace, payOrder_of_thrown s id body fire io _ e htr rfl, hn⟩

/-- Retries used up on a CREATED order, and a second request whose first failure
opens the breaker: 503 both times, the order stays CREATED, nothing is published. -/
theorem pay_failure_changes_nothing_witness :
    (∃ trace, payOrder ⟨[⟨"1", "CREATED", .fin 0⟩], [Evt.orderCreated "1"], []⟩ "1"
        (.json (.num (.fin 25))) (fun _ => .paymentFailed ⟨"random_fail"⟩ false) PayIo.ok =
        some ⟨⟨[⟨"1", "CREATED", .fin 0⟩], [Evt.orderCreated "1"], []⟩,
          ⟨503, .failure "payment_failed_or_cb_open" (JsError.mk "random_fail").message⟩, trace⟩ ∧
      numCharges trace = 3 + 1) ∧
    (∃ trace, payOrder ⟨[⟨"1", "CREATED", .fin 0⟩], [Evt.orderCreated "1"], []⟩ "1"
        (.json (.num (.fin 25))) (fun _ => .paymentFailed ⟨"random_fail"⟩ true) PayIo.ok =
        some ⟨⟨[⟨"1", "CREATED", .fin 0⟩], [Evt.orderCreated "1"], []⟩,
          ⟨503, .failure "payment_failed_or_cb_open" (JsError.mk "random_fail").message⟩, trace⟩ ∧
      numCharges trace = 0 + 1) :=
  ⟨pay_failure_changes_nothing _ "1" (.json (.num (.fin 25)))
      (fun _ => .paymentFailed ⟨"random_fail"⟩ false) PayIo.ok 3 ⟨"random_fail"⟩ false
      (by decide) (fun _ _ => ⟨_, rfl⟩) rfl (Or.inl rfl),
    pay_failure_changes_nothing _ "1" (.json (.num (.fin 25)))
      (fun _ => .paymentFailed ⟨"random_fail"⟩ true) PayIo.ok 0 ⟨"random_fail"⟩ true
      (by decide) (fun _ h => absurd h (by omega)) rfl (Or.inr rfl)⟩

/-- When the handler answers `{id, status: PAID}` the UPDATE has run and both
messages are published. -/
theorem payOrder_of_paid (s : Sys) (id : String) (body : ReqBody) (fire : Nat → FireResult)
    (io : PayIo)
    (hok : (payOrder s id body fire io).map (fun r => r.response) =
      some ⟨200, .idStatus id "PAID"⟩) :
    ∃ r, payOrder s id body fire io = some r ∧ r.response = ⟨200, .idStatus id "PAID"⟩ ∧
      r.sys = { ordersWrite := updateById s.ordersWrite id "PAID" (payAmount body)
                paymentsQ := s.paymentsQ ++ [Evt.paymentRequested id (payAmount body)]
                projectorQ := s.projectorQ ++ [Evt.paymentCompleted id (payAmount body)] } := by
  obtain ⟨lr, hlr⟩ := retryLoop_total fire
  cases ht : lr.thrown with
  | some e =>
    rw [payOrder_of_thrown s id body fire io lr e hlr ht] at hok
    simp at hok
  | none =>
    obtain ⟨r, hr, _, _, _, h⟩ := payOrder_of_charged s id body fire io lr hlr ht
    rw [hr] at hok
    simp only [Option.map_some', Option.some.injEq] at hok
    rcases h with h | h
    · rw [hok] at h
      simp at h
    · exact ⟨r, hr, h.1, h.2⟩

theorem selectById_updateById_self (t : Table) (id s : String) (a : JsNum)
    (h : hasId t id = true) : selectById (updateById t id s a) id = some ⟨id, s, a⟩ := by
  have h2 := hasId_eq_isSome t id
  rw [h] at h2
  obtain ⟨r, hr⟩ := Option.isSome_iff_exists.mp h2.symm
  have hid := selectById_id t id r hr
  simp [selectById_updateById, hr, hid]

theorem amountOrZero_some (q : ℚ) : amountOrZero (some q) = .fin q := by
  by_cases h : q = 0 <;> simp [amountOrZero, JsNum.truthy, h]

/-- C7 (amended): for an id that has a record in the write table and a non-zero
finite number `q` supplied as `amount`, when the pay handler answers
`{id, status: PAID}` the record of that id has status PAID and amount `q`, and
each queue has gained exactly one message: PaymentRequested on `payments` and
PaymentCompleted on `projector`, both with id and amount `q`. -/
theorem pay_success_records_supplied_amount (s : Sys) (id : String) (q : ℚ)
    (fire : Nat → FireResult) (io : PayIo) (hq : q ≠ 0) (hrow : hasId s.ordersWrite id = true)
    (hok : (payOrder s id (.json (.num (.fin q))) fire io).map (fun r => r.response) =
      some ⟨200, .idStatus id "PAID"⟩) :
    ∃ r, payOrder s id (.json (.num (.fin q))) fire io = some r ∧
      selectById r.sys.ordersWrite id = some ⟨id, "PAID", .fin q⟩ ∧
      r.sys.paymentsQ = s.paymentsQ ++ [⟨"PaymentRequested", id, some q⟩] ∧
      r.sys.projectorQ = s.projectorQ ++ [⟨"PaymentCompleted", id, some q⟩] := by
  obtain ⟨r, hr, _, hsys⟩ := payOrder_of_paid s id _ fire io hok
  have hamt : payAmount (.json (.num (.fin q))) = .fin q := by
    simp [payAmount, ReqBody.amountField, JsVal.or, JsVal.truthy, JsNum.truthy, hq, JsVal.toNumber]
  rw [hamt] at hsys
  refine ⟨r, hr, ?_, ?_, ?_⟩
  · rw [hsys]; exact selectById_updateById_self _ _ _ _ hrow
  · rw [hsys]; rfl
  · rw [hsys]; rfl

/-- An order created and then paid with amount 25. -/
theorem pay_success_records_supplied_amount_witness :
    ∃ r, payOrder ⟨[⟨"1", "CREATED", .fin 0⟩], [Evt.orderCreated "1"], []⟩ "1"
        (.json (.num (.fin 25))) (fun _ => .charged) PayIo.ok = some r ∧
      selectById r.sys.ordersWrite "1" = some ⟨"1", "PAID", .fin 25⟩ ∧
      r.sys.paymentsQ = [] ++ [⟨"PaymentRequested", "1", some 25⟩] ∧
      r.sys.projectorQ = [Evt.orderCreated "1"] ++ [⟨"PaymentCompleted", "1", some 25⟩] :=
  pay_success_records_supplied_amount ⟨[⟨"1", "CREATED", .fin 0⟩], [Evt.orderCreated "1"], []⟩
    "1" 25 (fun _ => .charged) PayIo.ok (by decide) (by decide) (by decide)

/-- C7 as stated fails: a supplied amount of 0 is replaced by 10 in the record and
in both events, and for an id without a record the handler answers
`{id, status: PAID}` while the write table holds no record of it. -/
theorem pay_success_counterexample :
    payOrder ⟨[⟨"1", "CREATED", .fin 0⟩], [], []⟩ "1" (.json (.num (.fin 0))) (fun _ => .charged)
        PayIo.ok =
      some ⟨⟨[⟨"1", "PAID", .fin 10⟩], [⟨"PaymentCompleted", "1", some 10⟩],
          [⟨"PaymentRequested", "1", some 10⟩]⟩, ⟨200, .idStatus "1" "PAID"⟩, [.charge]⟩ ∧
    payOrder Sys.init "2" (.json (.num (.fin 5))) (fun _ => .charged) PayIo.ok =
      some ⟨⟨[], [⟨"PaymentCompleted", "2", some 5⟩], [⟨"PaymentRequested", "2", some 5⟩]⟩,
        ⟨200, .idStatus "2" "PAID"⟩, [.charge]⟩ ∧
    selectById ([] : Table) "2" = none := by
  decide

/-- C3 (amended): when the pay handler answers `{id, status: PAID}` and the amount it
computed is a finite number `q`, the handler has published exactly one message
on `projector`, a PaymentCompleted, and once the projector has applied it to
any read table the read row of that id is PAID with amount `q`, the amount the
handler passed to its UPDATE of the write table (and which the write record
holds when the id has one). -/
theorem paid_order_is_projected (s : Sys) (id : String) (body : ReqBody)
    (fire : Nat → FireResult) (io : PayIo) (rt : Table) (q : ℚ)
    (hfin : payAmount body = .fin q)
    (hok : (payOrder s id body fire io).map (fun r => r.response) =
      some ⟨200, .idStatus id "PAID"⟩) :
    ∃ r evt, payOrder s id body fire io = some r ∧
      r.sys.projectorQ = s.projectorQ ++ [evt] ∧ evt.type = "PaymentCompleted" ∧
      r.sys.ordersWrite = updateById s.ordersWrite id "PAID" (.fin q) ∧
      (hasId s.ordersWrite id = true →
        selectById r.sys.ordersWrite id = some ⟨id, "PAID", .fin q⟩) ∧
      selectById (projector rt evt) id = some ⟨id, "PAID", .fin q⟩ := by
  obtain ⟨r, hr, _, hsys⟩ := payOrder_of_paid s id body fire io hok
  rw [hfin] at hsys
  refine ⟨r, ⟨"PaymentCompleted", id, some q⟩, hr, ?_, rfl, ?_, ?_, ?_⟩
  · rw [hsys]; rfl
  · rw [hsys]
  · intro h; rw [hsys]; exact selectById_updateById_self _ _ _ _ h
  · rw [selectById_paymentCompleted, amountOrZero_some]

/-- An order paid with amount 25, projected onto its CREATED row. -/
theorem paid_order_is_projected_witness :
    ∃ r evt, payOrder ⟨[⟨"1", "CREATED", .fin 0⟩], [], []⟩ "1" (.json (.num (.fin 25)))
        (fun _ => .charged) PayIo.ok = some r ∧
      r.sys.projectorQ = [] ++ [evt] ∧ evt.type = "PaymentCompleted" ∧
      r.sys.ordersWrite = updateById [⟨"1", "CREATED", .fin 0⟩] "1" "PAID" (.fin 25) ∧
      (hasId [⟨"1", "CREATED", .fin 0⟩] "1" = true →
        selectById r.sys.ordersWrite "1" = some ⟨"1", "PAID", .fin 25⟩) ∧
      selectById (projector [⟨"1", "CREATED", .fin 0⟩] evt) "1" =
        some ⟨"1", "PAID", .fin 25⟩ :=
  paid_order_is_projected ⟨[⟨"1", "CREATED", .fin 0⟩], [], []⟩ "1" (.json (.num (.fin 25)))
    (fun _ => .charged) PayIo.ok [⟨"1", "CREATED", .fin 0⟩] 25 (by decide) (by decide)

/-- C3 as stated fails: with the amount "abc" the handler computes NaN and writes it
to the write record, the PaymentCompleted message carries `null`, and the
projector writes amount 0 to the read row. -/
theorem paid_order_projection_counterexample :
    payOrder ⟨[⟨"1", "CREATED", .fin 0⟩], [], []⟩ "1" (.json (.str "abc")) (fun _ => .charged)
        PayIo.ok =
      some ⟨⟨[⟨"1", "PAID", .nan⟩], [⟨"PaymentCompleted", "1", none⟩],
          [⟨"PaymentRequested", "1", none⟩]⟩, ⟨200, .idStatus "1" "PAID"⟩, [.charge]⟩ ∧
    project [⟨"1", "CREATED", .fin 0⟩] [⟨"PaymentCompleted", "1", none⟩] =
      [⟨"1", "PAID", .fin 0⟩] ∧
    JsNum.fin 0 ≠ JsNum.nan := by
  decide

theorem mem_updateById (t : Table) (id s : String) (a : JsNum) (r : Row)
    (h : r ∈ updateById t id s a) : r ∈ t ∨ (r.status = s ∧ r.amount = a) := by
  simp only [updateById, List.mem_map] at h
  obtain ⟨x, hx, hxr⟩ := h
  split at hxr
  · right; subst hxr; exact ⟨rfl, rfl⟩
  · left; subst hxr; exact hx

theorem mem_projector (t : Table) (evt : Evt) (r : Row) (h : r ∈ projector t evt) :
    r ∈ t ∨ (r.status = "CREATED" ∧ r.amount = .fin 0) ∨
      (r.status = "PAID" ∧ r.amount = amountOrZero evt.amount) := by
  unfold projector insertOrNothing insertOrUpdate at h
  split at h
  · split at h
    · exact Or.inl h
    · rcases List.mem_append.mp h with h | h
      · exact Or.inl h
      · simp only [List.mem_singleton] at h
        subst h
        exact Or.inr (Or.inl ⟨rfl, rfl⟩)
  · split at h
    · split at h
      · rcases mem_updateById _ _ _ _ _ h with h | h
        · exact Or.inl h
        · exact Or.inr (Or.inr h)
      · rcases List.mem_append.mp h with h | h
        · exact Or.inl h
        · simp only [List.mem_singleton] at h
          subst h
          exact Or.inr (Or.inr ⟨rfl, rfl⟩)
    · exact Or.inl h

/-- Rows written by the projector are CREATED or PAID, and their amounts satisfy any
property `A` that holds of 0 and of the amounts of the messages. -/
theorem project_rows (A : JsNum → Prop) (hA0 : A (.fin 0)) (evts : List Evt) :
    ∀ t : Table, (∀ e ∈ evts, ∀ q, e.amount = some q → A (.fin q)) →
    (∀ r ∈ t, (r.status = "CREATED" ∨ r.status = "PAID") ∧ A r.amount) →
    ∀ r ∈ project t evts, (r.status = "CREATED" ∨ r.status = "PAID") ∧ A r.amount := by
  induction evts with
  | nil => intro t _ ht; exact ht
  | cons e es ih =>
    intro t hE ht
    apply ih (projector t e) (fun e' he' => hE e' (List.mem_cons_of_mem _ he'))
    intro r hr
    rcases mem_projector t e r hr with h | h | h
    · exact ht r h
    · exact ⟨Or.inl h.1, by rw [h.2]; exact hA0⟩
    · refine ⟨Or.inr h.1, ?_⟩
      rw [h.2]
      cases ha : e.amount with
      | none => exact hA0
      | some q => rw [amountOrZero_some]; exact hE e (List.mem_cons_self _ _) q ha

theorem step_invariant (A : JsNum → Prop) (hA0 : A (.fin 0)) (s : Sys) (req : Request)
    (hreq : ∀ id body fire io, req = .pay id body fire io → A (payAmount body))
    (hs : (∀ r ∈ s.ordersWrite, (r.status = "CREATED" ∨ r.status = "PAID") ∧ A r.amount) ∧
      (∀ e ∈ s.projectorQ, ∀ q, e.amount = some q → A (.fin q))) :
    (∀ r ∈ (s.step req).ordersWrite, (r.status = "CREATED" ∨ r.status = "PAID") ∧ A r.amount) ∧
      (∀ e ∈ (s.step req).projectorQ, ∀ q, e.amount = some q → A (.fin q)) := by
  cases req with
  | create now =>
    simp only [Sys.step, createOrder, insertRow]
    split
    · exact hs
    · rename_i w hw
      split at hw
      · simp at hw
      · simp only [Option.some.injEq] at hw
        subst hw
        constructor
        · intro r hr
          rcases List.mem_append.mp hr with h | h
          · exact hs.1 r h
          · simp only [List.mem_singleton] at h
            subst h
            exact ⟨Or.inl rfl, hA0⟩
        · intro e he q hq
          rcases List.mem_append.mp he with h | h
          · exact hs.2 e h q hq
          · simp only [List.mem_singleton] at h
            subst h
            simp [Evt.orderCreated] at hq
  | pay id body fire io =>
    obtain ⟨lr, hlr⟩ := retryLoop_total fire
    cases ht : lr.thrown with
    | some e =>
      simp only [Sys.step, payOrder_of_thrown s id body fire io lr e hlr ht]
      exact hs
    | none =>
      obtain ⟨r, hr, _, hw, hq, _⟩ := payOrder_of_charged s id body fire io lr hlr ht
      simp only [Sys.step, hr]
      constructor
      · intro row hrow
        rcases hw with hw | hw
        · rw [hw] at hrow; exact hs.1 row hrow
        · rw [hw] at hrow
          rcases mem_updateById _ _ _ _ _ hrow with h1 | h1
          · exact hs.1 row h1
          · exact ⟨Or.inr h1.1, by rw [h1.2]; exact hreq id body fire io rfl⟩
      · intro e he q hqe
        rcases hq with hq | hq
        · rw [hq] at he; exact hs.2 e he q hqe
        · rw [hq] at he
          rcases List.mem_append.mp he with h1 | h1
          · exact hs.2 e h1 q hqe
          · simp only [List.mem_singleton] at h1
            subst h1
            have hA := hreq id body fire io rfl
            cases hp : payAmount body with
            | fin q' =>
              rw [hp] at hA
              simp only [Evt.paymentCompleted, hp, jsonNumber, Option.some.injEq] at hqe
              subst hqe
              exact hA
            | nan => simp [Evt.paymentCompleted, hp, jsonNumber] at hqe
            | posInf => simp [Evt.paymentCompleted, hp, jsonNumber] at hqe
            | negInf => simp [Evt.paymentCompleted, hp, jsonNumber] at hqe

theorem run_invariant (A : JsNum → Prop) (hA0 : A (.fin 0)) (reqs : List Request) :
    ∀ s : Sys, (∀ id body fire io, Request.pay id body fire io ∈ reqs → A (payAmount body)) →
    ((∀ r ∈ s.ordersWrite, (r.status = "CREATED" ∨ r.status = "PAID") ∧ A r.amount) ∧
      (∀ e ∈ s.projectorQ, ∀ q, e.amount = some q → A (.fin q))) →
    (∀ r ∈ (s.run reqs).ordersWrite, (r.status = "CREATED" ∨ r.status = "PAID") ∧ A r.amount) ∧
      (∀ e ∈ (s.run reqs).projectorQ, ∀ q, e.amount = some q → A (.fin q)) := by
  induction reqs with
  | nil => intro s _ hs; exact hs
  | cons req rest ih =>
    intro s hreq hs
    exact ih (s.step req)
      (fun id body fire io h => hreq id body fire io (List.mem_cons_of_mem _ h))
      (step_invariant A hA0 s req
        (fun id body fire io h => hreq id body fire io (by rw [h]; exact List.mem_cons_self _ _))
        hs)

/-- C10 (amended): after any sequence of createOrder and payOrder requests from the
empty state, every record of the write table, and every row the projector
derives from messages published on `projector` (in any order, with any
repetition), has status CREATED or PAID; and its amount is a non-negative
decimal provided the amount of every payOrder request,
`Number(body.amount || 10)`, is one. -/
theorem statuses_and_amounts_invariant (reqs : List Request) (evts : List Evt)
    (hev : ∀ e ∈ evts, e ∈ (Sys.init.run reqs).projectorQ) :
    ((∀ r ∈ (Sys.init.run reqs).ordersWrite, r.status = "CREATED" ∨ r.status = "PAID") ∧
      (∀ r ∈ project [] evts, r.status = "CREATED" ∨ r.status = "PAID")) ∧
    ((∀ id body fire io, Request.pay id body fire io ∈ reqs → (payAmount body).NonNegDecimal) →
      (∀ r ∈ (Sys.init.run reqs).ordersWrite, r.amount.NonNegDecimal) ∧
      (∀ r ∈ project [] evts, r.amount.NonNegDecimal)) := by
  have hinit : ∀ A : JsNum → Prop,
      (∀ r ∈ Sys.init.ordersWrite, (r.status = "CREATED" ∨ r.status = "PAID") ∧ A r.amount) ∧
      (∀ e ∈ Sys.init.projectorQ, ∀ q, e.amount = some q → A (.fin q)) := by
    intro A
    constructor <;> intro x hx <;> simp [Sys.init] at hx
  constructor
  · have h := run_invariant (fun _ => True) trivial reqs Sys.init (fun _ _ _ _ _ => trivial)
      (hinit (fun _ => True))
    refine ⟨fun r hr => (h.1 r hr).1, fun r hr => ?_⟩
    exact (project_rows (fun _ => True) trivial evts [] (fun _ _ _ _ => trivial)
      (fun r hr => by simp at hr) r hr).1
  · intro hamt
    have h0 : (JsNum.fin 0).NonNegDecimal := le_refl (0 : ℚ)
    have h := run_invariant JsNum.NonNegDecimal h0 reqs Sys.init hamt (hinit JsNum.NonNegDecimal)
    refine ⟨fun r hr => (h.1 r hr).2, fun r hr => ?_⟩
    exact (project_rows JsNum.NonNegDecimal h0 evts []
      (fun e he q hq => h.2 e (hev e he) q hq) (fun r hr => by simp at hr) r hr).2

/-- An order created at time 1 and paid with amount 25, the PaymentCompleted
delivered before the OrderCreated and then once more. -/
theorem statuses_and_amounts_invariant_witness :
    (∀ e ∈ [Evt.paymentCompleted "1" (.fin 25), Evt.orderCreated "1",
        Evt.paymentCompleted "1" (.fin 25)],
      e ∈ (Sys.init.run [.create 1, .pay "1" (.json (.num (.fin 25))) (fun _ => .charged) PayIo.ok]).projectorQ) ∧
    (∀ id body fire io, Request.pay id body fire io ∈
        [Request.create 1, .pay "1" (.json (.num (.fin 25))) (fun _ => .charged) PayIo.ok] →
      (payAmount body).NonNegDecimal) ∧
    (∀ r ∈ (Sys.init.run [.create 1, .pay "1" (.json (.num (.fin 25))) (fun _ => .charged) PayIo.ok]).ordersWrite,
      r.amount.NonNegDecimal) := by
  have hev : ∀ e ∈ [Evt.paymentCompleted "1" (.fin 25), Evt.orderCreated "1",
      Evt.paymentCompleted "1" (.fin 25)],
      e ∈ (Sys.init.run [.create 1, .pay "1" (.json (.num (.fin 25))) (fun _ => .charged) PayIo.ok]).projectorQ := by
    decide
  have hamt : ∀ id body fire io, Request.pay id body fire io ∈
      [Request.create 1, .pay "1" (.json (.num (.fin 25))) (fun _ => .charged) PayIo.ok] →
      (payAmount body).NonNegDecimal := by
    intro id body fire io h
    simp only [List.mem_cons, List.mem_singleton, Request.pay.injEq, List.not_mem_nil,
      or_false, false_or, reduceCtorEq] at h
    rw [h.2.1]
    decide
  exact ⟨hev, hamt,
    ((statuses_and_amounts_invariant _ _ hev).2 hamt).1⟩

/-- C10 as stated fails: an order created and then paid with amount -5 has a write
record, and a projected read row, of amount -5. -/
theorem negative_amount_counterexample :
    (Sys.init.run [.create 1, .pay "1" (.json (.num (.fin (-5)))) (fun _ => .charged) PayIo.ok]).ordersWrite =
      [⟨"1", "PAID", .fin (-5)⟩] ∧
    project [] (Sys.init.run
      [.create 1, .pay "1" (.json (.num (.fin (-5)))) (fun _ => .charged) PayIo.ok]).projectorQ =
      [⟨"1", "PAID", .fin (-5)⟩] ∧
    ¬ (JsNum.fin (-5)).NonNegDecimal := by
  decide

theorem dropLiteral_some (lit cs rest : List Char) (h : dropLiteral lit cs = some rest) :
    cs = lit ++ rest := by
  unfold dropLiteral at h
  split at h
  · rename_i hp
    simp only [Option.some.injEq] at h
    subst h
    have := List.isPrefixOf_iff_prefix.mp hp
    exact (List.prefix_iff_eq_append.mp this).symm
  · simp at h

/-- A match at the start of `cs` spells `<id>`, the group, `</id>`. -/
theorem matchIdAt_some (cs group : List Char) (h : matchIdAt cs = some group) :
    ∃ post, cs = "<id>".toList ++ group ++ "</id>".toList ++ post ∧ group ≠ [] ∧ '<' ∉ group := by
  unfold matchIdAt at h
  split at h
  · simp at h
  · rename_i rest hrest
    simp only at h
    split at h
    · rename_i hc
      simp only [Option.some.injEq] at h
      have hcs := dropLiteral_some _ _ _ hrest
      have hpre := List.isPrefixOf_iff_prefix.mp hc.2
      obtain ⟨post, hpost⟩ := hpre
      refine ⟨post, ?_, ?_, ?_⟩
      · rw [hcs, ← h, List.append_assoc, List.append_assoc, hpost, List.takeWhile_append_dropWhile]
      · rw [← h]; exact hc.1
      · rw [← h]
        intro hmem
        have := List.mem_takeWhile_imp hmem
        simp at this
    · simp at h

/-- A match of the regular expression anywhere in `cs` spells `<id>`, the group, `</id>`. -/
theorem idMatch_some (cs : List Char) : ∀ group, idMatch cs = some group →
    ∃ pre post, cs = pre ++ "<id>".toList ++ group ++ "</id>".toList ++ post ∧
      group ≠ [] ∧ '<' ∉ group := by
  induction cs with
  | nil => intro g h; simp [idMatch] at h
  | cons c cs ih =>
    intro g h
    unfold idMatch at h
    split at h
    · rename_i g' hg'
      simp only [Option.some.injEq] at h
      subst h
      obtain ⟨post, h1, h2, h3⟩ := matchIdAt_some _ _ hg'
      exact ⟨[], post, by simpa using h1, h2, h3⟩
    · obtain ⟨pre, post, h1, h2, h3⟩ := ih g h
      exact ⟨c :: pre, post, by simp [h1], h2, h3⟩

/-- A text without the opening tag `<id>` holds no id element. -/
theorem no_id_element_of_no_open_tag (cs : List Char) (h : ¬ "<id>".toList <:+: cs) :
    ¬ ∃ pre group post, cs = pre ++ "<id>".toList ++ group ++ "</id>".toList ++ post ∧
      group ≠ [] ∧ '<' ∉ group := by
  rintro ⟨pre, g, post, hcs, _, _⟩
  apply h
  exact ⟨pre, g ++ "</id>".toList ++ post, by simp [hcs]⟩

/-- C8 (amended): for every text body of POST /soap/order that holds no `<id>` element
(no `<id>`, then a non-empty text without `<`, then `</id>`), the handler
answers 400 with a SOAP fault of faultcode Client, leaves the cache as it is
and makes no cache or read-store lookup, whatever the read table, the cache,
the time, the `EX` value and the state of the database. -/
theorem soap_without_id_is_client_fault (ex : Nat) (t : Table) (c : Cache) (xml : String)
    (now later : Nat) (select : Option JsError)
    (hno : ¬ ∃ pre group post,
      xml.toList = pre ++ "<id>".toList ++ group ++ "</id>".toList ++ post ∧
        group ≠ [] ∧ '<' ∉ group) :
    soapOrder ex t c (.text xml) now later select =
      ⟨c, some ⟨400, .xml (.fault "Client" "Missing <id> in request")⟩, []⟩ := by
  have hm : idMatch xml.toList = none := by
    cases h : idMatch xml.toList with
    | none => rfl
    | some g =>
      obtain ⟨pre, post, hg⟩ := idMatch_some _ g h
      exact absurd ⟨pre, g, post, hg⟩ hno
  simp only [soapOrder, hm, buildSoapFault]

/-- A request for an order by a `<number>` element instead of `<id>`. -/
theorem soap_without_id_is_client_fault_witness :
    soapOrder monolithEx [⟨"7", "PAID", .fin 5⟩] [] (.text "<number>7</number>") 0 0 none =
      ⟨[], some ⟨400, .xml (.fault "Client" "Missing <id> in request")⟩, []⟩ :=
  soap_without_id_is_client_fault monolithEx [⟨"7", "PAID", .fin 5⟩] [] "<number>7</number>" 0 0
    none (no_id_element_of_no_open_tag _ (by decide))

/-- C8 as stated fails: a body that is not text (a JSON body such as `{}`, or no
parsed body) holds no `<id>` element, and the handler answers 500 with
faultcode Server. -/
theorem soap_non_text_body_counterexample :
    soapOrder monolithEx [] [] (.json .undefined) 0 0 none =
      ⟨[], some ⟨500, .xml (.fault "Server" "Internal server error")⟩, []⟩ ∧
    soapOrder (serviceEx ⟨10⟩) [] [] .absent 0 0 none =
      ⟨[], some ⟨500, .xml (.fault "Server" "Internal server error")⟩, []⟩ := by
  decide

theorem cacheKey_injective (a b : String) (h : cacheKey a = cacheKey b) : a = b := by
  have h2 := congrArg String.data h
  simp only [cacheKey, String.data_append] at h2
  exact String.ext (List.append_cancel_left h2)

theorem redisGet_redisSet_live (c : Cache) (key : String) (v : Row) (ex later now : Nat)
    (h : now < later + 1000 * ex) : redisGet (redisSet c key v ex later) key now = some v := by
  simp [redisGet, redisSet, List.find?_cons, h]

theorem redisGet_redisSet_expired (c : Cache) (key : String) (v : Row) (ex later now : Nat)
    (h : later + 1000 * ex ≤ now) : redisGet (redisSet c key v ex later) key now = none := by
  have h1 : ¬ now < later + 1000 * ex := by omega
  simp only [redisGet, redisSet, List.find?_cons, beq_self_eq_true, Bool.true_and, h1,
    decide_False, Option.map_eq_none']
  rw [List.find?_eq_none]
  intro e he
  have := (List.mem_filter.mp he).2
  simp only [bne_iff_ne, ne_eq] at this
  simp [this]

theorem redisGet_some_mem (c : Cache) (key : String) (now : Nat) (v : Row)
    (h : redisGet c key now = some v) : ∃ e ∈ c, e.key = key := by
  simp only [redisGet, Option.map_eq_some'] at h
  obtain ⟨e, he, _⟩ := h
  have h1 := List.mem_of_find?_eq_some he
  have h2 := List.find?_some he
  simp only [Bool.and_eq_true, beq_iff_eq] at h2
  exact ⟨e, h1, h2.1⟩

theorem mem_redisSet (c : Cache) (key : String) (v : Row) (ex now : Nat) (e : CacheEntry)
    (h : e ∈ redisSet c key v ex now) : e.key = key ∨ e ∈ c := by
  simp only [redisSet, List.mem_cons] at h
  rcases h with h | h
  · left; rw [h]
  · right; exact (List.mem_filter.mp h).1

theorem hasId_of_selectById (t : Table) (id : String) (r : Row) (h : selectById t id = some r) :
    hasId t id = true := by
  rw [hasId_eq_isSome, h]; rfl

theorem mem_getOrder_cache (ex : Nat) (t : Table) (c : Cache) (id : String) (now later : Nat)
    (select : Option JsError) (e : CacheEntry)
    (h : e ∈ (getOrder ex t c id now later select).cache) :
    e ∈ c ∨ (e.key = cacheKey id ∧ hasId t id = true) := by
  unfold getOrder at h
  simp only at h
  split at h
  · exact Or.inl h
  · split at h
    · exact Or.inl h
    · split at h
      · exact Or.inl h
      · rename_i data hdata
        rcases mem_redisSet _ _ _ _ _ _ h with h1 | h1
        · exact Or.inr ⟨h1, hasId_of_selectById _ _ _ hdata⟩
        · exact Or.inl h1

theorem mem_soapOrder_cache (ex : Nat) (t : Table) (c : Cache) (body : ReqBody)
    (now later : Nat) (select : Option JsError) (e : CacheEntry)
    (h : e ∈ (soapOrder ex t c body now later select).cache) :
    e ∈ c ∨ ∃ id, e.key = cacheKey id ∧ hasId t id = true := by
  unfold soapOrder at h
  split at h
  · split at h
    · exact Or.inl h
    · simp only at h
      split at h
      · exact Or.inl h
      · split at h
        · exact Or.inl h
        · split at h
          · exact Or.inl h
          · rename_i order horder
            rcases mem_redisSet _ _ _ _ _ _ h with h1 | h1
            · exact Or.inr ⟨_, h1, hasId_of_selectById _ _ _ horder⟩
            · exact Or.inl h1
  · exact Or.inl h

/-- Every cache entry is the entry of an id that the read table holds: entries are
written from read rows only, and the projector removes no row. -/
theorem run_cache_coherent (ops : List ReadOp) : ∀ s : ReadSys,
    (∀ e ∈ s.cache, ∃ id, e.key = cacheKey id ∧ hasId s.ordersRead id = true) →
    ∀ e ∈ (s.run ops).cache, ∃ id, e.key = cacheKey id ∧ hasId (s.run ops).ordersRead id = true := by
  induction ops with
  | nil => intro s hs; exact hs
  | cons op rest ih =>
    intro s hs
    apply ih (s.step op)
    intro e he
    cases op with
    | deliver evt =>
      obtain ⟨id, h1, h2⟩ := hs e he
      exact ⟨id, h1, hasId_projector _ _ _ h2⟩
    | get ex id now later select =>
      rcases mem_getOrder_cache _ _ _ _ _ _ _ _ he with h | h
      · exact hs e h
      · exact ⟨id, h⟩
    | soap ex body now later select =>
      rcases mem_soapOrder_cache _ _ _ _ _ _ _ _ he with h | h
      · exact hs e h
      · exact h

/-- C9 (amended): on the read side reached from any read table and an empty cache by
any deliveries and requests, and with the read-store query succeeding: for an
id present in the read table a GET on a cache miss queries the read store and
stores the row under the key `order:<id>` with the TTL; a GET for the same id
before the TTL lapses returns the same order with a cache lookup only, whatever
the read table holds by then and whatever the database would answer; a GET once
the TTL has lapsed queries the read store again and returns the row it holds
then. For an id absent from the read table the GET answers 404 not_found after
a cache and a read-store lookup and leaves the cache as it is. -/
theorem get_order_cache_aside (t0 : Table) (ops : List ReadOp) (ex : Nat) (id : String)
    (now later : Nat) :
    (∀ row, selectById (ReadSys.run ⟨t0, []⟩ ops).ordersRead id = some row →
      redisGet (ReadSys.run ⟨t0, []⟩ ops).cache ("order:" ++ id) now = none →
      getOrder ex (ReadSys.run ⟨t0, []⟩ ops).ordersRead (ReadSys.run ⟨t0, []⟩ ops).cache id
          now later none =
        ⟨⟨"order:" ++ id, row, later + 1000 * ex⟩ ::
            (ReadSys.run ⟨t0, []⟩ ops).cache.filter (fun e => e.key != "order:" ++ id),
          some ⟨200, .order row⟩,
          [.cacheGet ("order:" ++ id), .dbSelect id, .cacheSet ("order:" ++ id) row ex]⟩ ∧
      (∀ (ex2 : Nat) (t2 : Table) (now2 later2 : Nat) (select2 : Option JsError),
        now2 < later + 1000 * ex →
        getOrder ex2 t2 (redisSet (ReadSys.run ⟨t0, []⟩ ops).cache ("order:" ++ id) row ex later)
            id now2 later2 select2 =
          ⟨redisSet (ReadSys.run ⟨t0, []⟩ ops).cache ("order:" ++ id) row ex later,
            some ⟨200, .order row⟩, [.cacheGet ("order:" ++ id)]⟩) ∧
      (∀ (ex3 : Nat) (t3 : Table) (now3 later3 : Nat), later + 1000 * ex ≤ now3 →
        (∀ select3, .dbSelect id ∈ (getOrder ex3 t3
            (redisSet (ReadSys.run ⟨t0, []⟩ ops).cache ("order:" ++ id) row ex later)
            id now3 later3 select3).trace) ∧
        ∀ row3, selectById t3 id = some row3 →
          (getOrder ex3 t3
            (redisSet (ReadSys.run ⟨t0, []⟩ ops).cache ("order:" ++ id) row ex later)
            id now3 later3 none).response = some ⟨200, .order row3⟩)) ∧
    (selectById (ReadSys.run ⟨t0, []⟩ ops).ordersRead id = none →
      getOrder ex (ReadSys.run ⟨t0, []⟩ ops).ordersRead (ReadSys.run ⟨t0, []⟩ ops).cache id
          now later none =
        ⟨(ReadSys.run ⟨t0, []⟩ ops).cache, some ⟨404, .error "not_found"⟩,
          [.cacheGet ("order:" ++ id), .dbSelect id]⟩) := by
  have hcoh := run_cache_coherent ops ⟨t0, []⟩ (fun e he => by simp at he)
  generalize ReadSys.run ⟨t0, []⟩ ops = s at hcoh ⊢
  have hkey : cacheKey id = "order:" ++ id := rfl
  constructor
  · intro row hrow hmiss
    refine ⟨?_, ?_, ?_⟩
    · simp only [getOrder, hkey, hmiss, hrow, redisSet]
    · intro ex2 t2 now2 later2 select2 h2
      simp only [getOrder, hkey, redisGet_redisSet_live _ _ _ _ _ _ h2]
    · intro ex3 t3 now3 later3 h3
      have hexp := redisGet_redisSet_expired s.cache ("order:" ++ id) row ex later now3 h3
      constructor
      · intro select3
        simp only [getOrder, hkey, hexp]
        split
        · simp
        · split <;> simp
      · intro row3 hrow3
        simp only [getOrder, hkey, hexp, hrow3]
  · intro habs
    have hmiss : redisGet s.cache ("order:" ++ id) now = none := by
      cases hg : redisGet s.cache ("order:" ++ id) now with
      | none => rfl
      | some v =>
        obtain ⟨e, he, hk⟩ := redisGet_some_mem _ _ _ _ hg
        obtain ⟨id', hk', hhas⟩ := hcoh e he
        have : id = id' := cacheKey_injective _ _ (hkey.trans (hk.symm.trans hk'))
        subst this
        rw [hasId_eq_isSome, habs] at hhas
        simp at hhas
    simp only [getOrder, hkey, hmiss, habs]

/-- An order projected as CREATED, in the monolith (`EX: 10`): the first GET, whose
`redis.set` runs at 5 ms, stores the row under `order:1` until 10005 ms; a GET
at 9000 ms still returns CREATED although the row is PAID by then; a GET at
10005 ms returns the PAID row; a GET for the unknown id 2 is a 404. -/
theorem get_order_cache_aside_witness :
    (selectById (ReadSys.run ⟨[], []⟩ [.deliver (Evt.orderCreated "1")]).ordersRead "1" =
        some ⟨"1", "CREATED", .fin 0⟩ ∧
      redisGet (ReadSys.run ⟨[], []⟩ [.deliver (Evt.orderCreated "1")]).cache "order:1" 0 = none ∧
      selectById (ReadSys.run ⟨[], []⟩ [.deliver (Evt.orderCreated "1")]).ordersRead "2" = none) ∧
    getOrder monolithEx [⟨"1", "CREATED", .fin 0⟩] [] "1" 0 5 none =
      ⟨[⟨"order:1", ⟨"1", "CREATED", .fin 0⟩, 10005⟩], some ⟨200, .order ⟨"1", "CREATED", .fin 0⟩⟩,
        [.cacheGet "order:1", .dbSelect "1", .cacheSet "order:1" ⟨"1", "CREATED", .fin 0⟩ 10]⟩ ∧
    getOrder monolithEx [⟨"1", "PAID", .fin 25⟩]
        [⟨"order:1", ⟨"1", "CREATED", .fin 0⟩, 10005⟩] "1" 9000 9001 none =
      ⟨[⟨"order:1", ⟨"1", "CREATED", .fin 0⟩, 10005⟩],
        some ⟨200, .order ⟨"1", "CREATED", .fin 0⟩⟩, [.cacheGet "order:1"]⟩ ∧
    (getOrder monolithEx [⟨"1", "PAID", .fin 25⟩]
        [⟨"order:1", ⟨"1", "CREATED", .fin 0⟩, 10005⟩] "1" 10005 10006 none).response =
      some ⟨200, .order ⟨"1", "PAID", .fin 25⟩⟩ ∧
    getOrder (serviceEx ⟨0⟩) [⟨"1", "CREATED", .fin 0⟩] [] "2" 0 5 none =
      ⟨[], some ⟨404, .error "not_found"⟩, [.cacheGet "order:2", .dbSelect "2"]⟩ := by
  have hrow : selectById (ReadSys.run ⟨[], []⟩ [.deliver (Evt.orderCreated "1")]).ordersRead "1" =
      some ⟨"1", "CREATED", .fin 0⟩ := by decide
  have hmiss : redisGet (ReadSys.run ⟨[], []⟩ [.deliver (Evt.orderCreated "1")]).cache
      ("order:" ++ "1") 0 = none := by decide
  have habs : selectById (ReadSys.run ⟨[], []⟩ [.deliver (Evt.orderCreated "1")]).ordersRead "2" =
      none := by decide
  have h := (get_order_cache_aside [] [.deliver (Evt.orderCreated "1")] monolithEx "1" 0 5).1
    ⟨"1", "CREATED", .fin 0⟩ hrow hmiss
  exact ⟨⟨hrow, hmiss, habs⟩, h.1,
    h.2.1 monolithEx [⟨"1", "PAID", .fin 25⟩] 9000 9001 none (by decide),
    (h.2.2 monolithEx [⟨"1", "PAID", .fin 25⟩] 10005 10006 (by decide)).2 _ (by decide),
    (get_order_cache_aside [] [.deliver (Evt.orderCreated "1")] (serviceEx ⟨0⟩) "2" 0 5).2 habs⟩

/-- C9 as stated fails: the id U+0000 is absent from the read table, PostgreSQL
refuses it as a text parameter, the SELECT rejects outside any `try`, and the
GET handler of either file sends no response, hence no 404. -/
theorem get_order_failing_select_counterexample :
    selectById ([] : Table) "\x00" = none ∧
    getOrder monolithEx [] [] "\x00" 0 0
        (some ⟨"invalid byte sequence for encoding \"UTF8\": 0x00"⟩) =
      ⟨[], none, [.cacheGet "order:\x00", .dbSelect "\x00"]⟩ ∧
    getOrder (serviceEx ⟨10⟩) [] [] "\x00" 0 0
        (some ⟨"invalid byte sequence for encoding \"UTF8\": 0x00"⟩) =
      ⟨[], none, [.cacheGet "order:\x00", .dbSelect "\x00"]⟩ := by
  decide

end OrderSystem
